import Mathlib

/-!
Verification of the wdotool session/protocol layer against its specification.

The Rust sources are shallowly embedded: machine integers (`u32`) become
`Nat` with explicit overflow outcomes where the source performs unchecked
arithmetic, fallible operations return an explicit outcome type, OS-level
nondeterminism (random suffixes, `shm_open` results, the value drawn from
the normal distribution) is passed in as explicit parameters, and
straight-line imperative protocol code is embedded as the list of requests
it emits.
-/

namespace Wdotool

/-- Outcome of a library operation. `ok` is a normal return, `err` is an
`anyhow` error value returned to the caller (`context`/`bail!`), and
`panic` is an `unwrap()` on `None` or an arithmetic overflow in a debug
build: the process aborts instead of handing the caller an error value. -/
inductive Outcome (α : Type) where
  | ok (a : α)
  | err (msg : String)
  | panic
deriving DecidableEq, Repr

/-! ## Value sampler (`src/wdotool_lib/mod.rs`, `UIntValue`) -/

/-- `pub enum UIntValue { UInt(u32), UIntRange(u32, u32) }`. -/
inductive UIntValue where
  | uint (v : Nat)
  | uintRange (mn mx : Nat)
deriving DecidableEq, Repr

/-- Result of `UIntValue::get`. `samplingError` is the propagated
`Normal::new` construction failure (`context("invalid normal distribution")`);
`overflow` models unchecked `u32` arithmetic overflowing (a panic in a
debug build, a silent wrap in release — in either case not an error value
produced by the sampling path). -/
inductive GetResult where
  | ok (v : Nat)
  | samplingError
  | overflow
deriving DecidableEq, Repr

/-- Modelled from the spec: `rand_distr::Normal::new` (external crate, not
part of this repository's sources). Per the spec, constructing the
distribution fails when the parameters are degenerate (zero spread), and
succeeds otherwise. Returns the (mean, std dev) pair on success. -/
def Normal.new (mean stdDev : Nat) : Option (Nat × Nat) :=
  if stdDev = 0 then none else some (mean, stdDev)

/-- `UIntValue::get`. A fixed value resolves to itself. A range computes
`mean = (mn + mx) / 2` and `std_dev = (mx - mn) / 2` in unchecked `u32`
arithmetic (overflow modelled as the distinct `overflow` outcome), builds
the normal distribution, draws a sample, and returns
`v.max(mn).min(mx)`. The random draw, after the saturating `as u32` cast,
is the explicit parameter `draw`. -/
def UIntValue.get : UIntValue → Nat → GetResult
  | .uint v, _ => .ok v
  | .uintRange mn mx, draw =>
      if 2 ^ 32 ≤ mn + mx then .overflow
      else if mx < mn then .overflow
      else
        let mean := (mn + mx) / 2
        let stdDev := (mx - mn) / 2
        match Normal.new mean stdDev with
        | none => .samplingError
        | some _ => .ok (Nat.min (Nat.max draw mn) mx)

/-- `src/lib.rs`, `Wdotool::left_click` (the binding layer): a duration and
an optional maximum are turned into a `UIntValue` with no validation of
their order. -/
def pyDurationValue (durationMs : Nat) (durationMsMax : Option Nat) : UIntValue :=
  match durationMsMax with
  | some m => .uintRange durationMs m
  | none => .uint durationMs

/-! ## Session state (`src/wdotool_lib/app_data.rs`) -/

/-- `pub struct Output { output: wl_output::WlOutput, name: Option<String> }`,
with the opaque `WlOutput` handle represented by the compositor-assigned
numeric id it was registered under (the `HashMap` key). -/
structure Output where
  id : Nat
  name : Option String
deriving DecidableEq, Repr

/-- The relevant fields of `AppData` after the discovery round-trip: which
globals were advertised (`Option` handles represented as presence flags),
the output map (as the list the `HashMap` iterates over), and whether the
keyboard round-trip delivered a keymap event. -/
structure AppData where
  seat : Bool
  vkm : Bool
  vpm : Bool
  screencopyManager : Bool
  shm : Bool
  keymap : Bool
  outputs : List Output
deriving DecidableEq, Repr

/-- `AppData::get_output_by_name`: linear scan over the output map, returning
the first output whose `name` field is `Some(name)`. -/
def AppData.get_output_by_name (a : AppData) (name : String) : Option Nat :=
  (a.outputs.find? (fun o => o.name == some name)).map Output.id

/-! ## Output resolution (`src/wdotool_lib/helper.rs`, `screenshot`, lines 87-105) -/

/-- The output-resolution head of `screenshot`: an explicit name is looked up
via `get_output_by_name` (`context("no WLOutput with name {name}")` on a
miss); with no name, more than one known output is an ambiguity error,
zero known outputs is an error, and the sole output is used otherwise. -/
def resolve_output (a : AppData) (outputName : Option String) : Outcome Nat :=
  match outputName with
  | some name =>
      match a.get_output_by_name name with
      | some o => .ok o
      | none => .err ("no WLOutput with name " ++ name)
  | none =>
      if 1 < a.outputs.length then
        .err "more that one WLOuput set. Please specify the name of the one to use"
      else
        match a.outputs.head? with
        | some o => .ok o.id
        | none => .err "at least one display need to be set"

/-- `screenshot` continues after output resolution by requiring the
screen-copy manager (`context("no screencopy manager")`). -/
def screenshot_start (a : AppData) (outputName : Option String) : Outcome Nat :=
  match resolve_output a outputName with
  | .ok o => if a.screencopyManager then .ok o else .err "no screencopy manager"
  | .err m => .err m
  | .panic => .panic

/-- `screenshot` requires the shared-memory factory when creating the pool
(`context("no shared memory")`). -/
def screenshot_shm_check (a : AppData) : Outcome Unit :=
  if a.shm then .ok () else .err "no shared memory"

/-! ## Session bootstrap (`src/wdotool_lib/helper.rs` `setup_virtual_keyboard`,
`src/wdotool_lib/mod.rs` `Wdotool::connect`) -/

/-- `setup_virtual_keyboard`: `app_data.seat.as_ref().unwrap()` (get the
keyboard), round-trip, `app_data.vkm.as_ref().unwrap()` (create the virtual
keyboard), `app_data.keymap.unwrap()` (upload it). Each `unwrap()` on a
missing value is a panic, not an error value. -/
def setup_virtual_keyboard (a : AppData) : Outcome Unit :=
  if !a.seat then .panic
  else if !a.vkm then .panic
  else if !a.keymap then .panic
  else .ok ()

/-- `Wdotool::connect` after the discovery round-trip: runs
`setup_virtual_keyboard`, then `app_data.vpm.as_ref().unwrap()` to create
the virtual pointer. -/
def connect (a : AppData) : Outcome Unit :=
  match setup_virtual_keyboard a with
  | .ok _ => if !a.vpm then .panic else .ok ()
  | .err m => .err m
  | .panic => .panic

/-! ## Socket path resolution (`src/wdotool_lib/helper.rs`, `connect_wayland`) -/

/-- `PathBuf::is_absolute` for the Unix paths at hand: the path starts with
the separator. -/
def isAbsolute (p : String) : Bool := p.data.head? == some '/'

/-- `PathBuf::push` of a relative component: append, inserting a separator
unless one is already trailing. -/
def pathPush (dir file : String) : String :=
  if dir.data.getLast? == some '/' then dir ++ file else dir ++ "/" ++ file

/-- `connect_wayland`, up to the socket path it connects to. The process
environment is passed explicitly: `wdEnv` is `WAYLAND_DISPLAY`, `xdgEnv` is
`XDG_RUNTIME_DIR` (`None` when unset). The display name is the explicit
argument, else `WAYLAND_DISPLAY`, else `"wayland-0"`; an absolute name is
used as-is; a relative one requires `XDG_RUNTIME_DIR`
(`context("no XDG_RUNTIME_DIR set")`) and is pushed onto it. -/
def connect_wayland (display wdEnv xdgEnv : Option String) : Outcome String :=
  let socketFile :=
    match display with
    | some d => d
    | none => wdEnv.getD "wayland-0"
  if isAbsolute socketFile then .ok socketFile
  else
    match xdgEnv with
    | some dir => .ok (pathPush dir socketFile)
    | none => .err "no XDG_RUNTIME_DIR set"

/-- The spec's description of path resolution, written from the spec's words
for comparison with `connect_wayland`: the chosen name is resolved as-is
when absolute, joined under the runtime directory when relative, and is a
configuration error when relative with no runtime directory. -/
def resolvePathSpec (socketFile : String) (xdgEnv : Option String) : Outcome String :=
  if isAbsolute socketFile then .ok socketFile
  else
    match xdgEnv with
    | some dir => .ok (pathPush dir socketFile)
    | none => .err "no XDG_RUNTIME_DIR set"

/-! ## Capture buffer (`src/wdotool_lib/app_data.rs` `Buffer`,
`src/wdotool_lib/helper.rs` `screenshot`, lines 156-161) -/

/-- `pub struct Buffer { format, width, height, stride }` (the negotiated
buffer parameters recorded from the screen-copy `Buffer` event). The
format tag is represented by its numeric value. -/
structure Buffer where
  format : Nat
  width : Nat
  height : Nat
  stride : Nat
deriving DecidableEq, Repr

/-- `Buffer::size`: `4 * self.height as usize * self.width as usize`
(fixed 4 bytes per pixel; the stride field is not consulted). -/
def Buffer.size (b : Buffer) : Nat := 4 * b.height * b.width

/-- The length of the byte vector `screenshot` reads with `read_exact`:
`vec![0u8; height as usize * width as usize * 4]`. -/
def screenshotReadLen (b : Buffer) : Nat := b.height * b.width * 4

/-- Split a list into consecutive chunks of `n` elements (the row-major
reshape step). Empty output on `n = 0` or an empty list. -/
def chunk : Nat → List α → List (List α)
  | _, [] => []
  | 0, _ :: _ => []
  | n + 1, x :: xs =>
      have : (xs.drop n).length < xs.length + 1 := by
        simp only [List.length_drop]
        omega
      (x :: xs).take (n + 1) :: chunk (n + 1) (xs.drop n)
termination_by _ l => l.length

/-- `ndarray`'s `.to_shape((h, w, c))` on a flat vector: fails unless the
length is exactly `h * w * c`, otherwise produces the row-major
3-dimensional array, here as nested lists. -/
def to_shape3 (h w c : Nat) (buf : List α) : Option (List (List (List α))) :=
  if buf.length = h * w * c then some ((chunk (w * c) buf).map (chunk c))
  else none

/-! ## Input injection traces (`src/wdotool_lib/mod.rs`, `left_click`,
`right_click`, `key_press`) -/

/-- One observable step of an input-injection method: a pointer `button`
request (`time`, `code`, pressed/released), a virtual-keyboard `key`
request (`time`, `code`, `state` 1 = press, 0 = release), a round-trip on
the event queue, or a `thread::sleep` of `ms` milliseconds. -/
inductive Action where
  | button (time code : Nat) (pressed : Bool)
  | key (time code state : Nat)
  | roundtrip
  | sleepMs (ms : Nat)
deriving DecidableEq, Repr

/-- `Wdotool::left_click` / `right_click`, parameterised by the fixed button
code (272 for left, 273 for right): resolve the duration first, then emit
press, round-trip, sleep the resolved duration, release, round-trip.
A failed resolution returns before any request is emitted. -/
def click (code : Nat) (durationMs : UIntValue) (draw : Nat) :
    Outcome Unit × List Action :=
  match durationMs.get draw with
  | .ok d =>
      (.ok (), [.button 0 code true, .roundtrip, .sleepMs d,
                .button 0 code false, .roundtrip])
  | .samplingError => (.err "invalid normal distribution", [])
  | .overflow => (.panic, [])

/-- `Wdotool::left_click`: button code 272. -/
def left_click (durationMs : UIntValue) (draw : Nat) : Outcome Unit × List Action :=
  click 272 durationMs draw

/-- `Wdotool::right_click`: button code 273. -/
def right_click (durationMs : UIntValue) (draw : Nat) : Outcome Unit × List Action :=
  click 273 durationMs draw

/-- `Wdotool::key_press`: emit the key press and round-trip, then resolve
the duration, sleep, emit the release, round-trip. A failed resolution
returns after the press and its round-trip were already emitted. -/
def key_press (key : Nat) (durationMs : UIntValue) (draw : Nat) :
    Outcome Unit × List Action :=
  match durationMs.get draw with
  | .ok d =>
      (.ok (), [.key 0 key 1, .roundtrip, .sleepMs d, .key 0 key 0, .roundtrip])
  | .samplingError => (.err "invalid normal distribution", [.key 0 key 1, .roundtrip])
  | .overflow => (.panic, [.key 0 key 1, .roundtrip])

/-! ## Shared-memory allocator (`src/wdotool_lib/shm.rs`, `create_shm_file`) -/

/-- `libc::EEXIST`. -/
def EEXIST : Nat := 17

/-- The OS behaviour of one creation attempt, indexed by attempt number:
`opened (some e)` means `shm_open` succeeded but the following `ftruncate`
failed with errno `e`; `opened none` means both succeeded; `fail e` means
`shm_open` returned a negative descriptor with errno `e`. -/
inductive ShmOpen where
  | opened (truncErrno : Option Nat)
  | fail (errno : Nat)
deriving DecidableEq, Repr

/-- System calls `create_shm_file` issues, in order. -/
inductive ShmAction where
  | tryOpen (name : String)
  | unlink (name : String)
  | truncate (name : String)
deriving DecidableEq, Repr

/-- Result of `create_shm_file`: a descriptor created on attempt `attempt`
(0-based), the `bail!("Failed to create shm file: {}", err)` branch for a
non-`EEXIST` last OS error, or the plain
`bail!("Failed to create shm file")` collision branch. -/
inductive ShmResult where
  | ok (attempt : Nat)
  | errOs (errno : Nat)
  | errCollision
deriving DecidableEq, Repr

/-- The error selection after the loop: `std::io::Error::last_os_error()` is
inspected, and any errno other than `EEXIST` takes the
`"Failed to create shm file: {err}"` branch. `none` (no failed call was
made, unreachable from the real entry point) is rendered as errno 0. -/
def shmFinalErr : Option Nat → ShmResult
  | some e => if e = EEXIST then .errCollision else .errOs e
  | none => .errOs 0

/-- The `while retries > 0` loop of `create_shm_file`. `env` gives each
attempt's OS outcome, `suffixes` each call of `randname()`; `r` is the
remaining `retries`, `i` the attempt index, `name` the accumulated name
string (`name.push_str(&randname())` appends — it never resets), `lastE`
the current `errno`. On a successful open the name is unlinked, then
truncated: success returns the descriptor, a truncate failure breaks out
of the loop to the error selection. A failed open of any errno falls
through to `retries -= 1` and the next iteration. Returns the result and
the ordered list of system calls issued. -/
def create_shm_loop (env : Nat → ShmOpen) (suffixes : Nat → String) :
    Nat → Nat → String → Option Nat → ShmResult × List ShmAction
  | 0, _, _, lastE => (shmFinalErr lastE, [])
  | r + 1, i, name, _lastE =>
      let name' := name ++ suffixes i
      match env i with
      | .opened none =>
          (.ok i, [.tryOpen name', .unlink name', .truncate name'])
      | .opened (some e) =>
          (shmFinalErr (some e), [.tryOpen name', .unlink name', .truncate name'])
      | .fail e =>
          let rest := create_shm_loop env suffixes r (i + 1) name' (some e)
          (rest.1, .tryOpen name' :: rest.2)

/-- `create_shm_file`: 100 retries, starting name `"/wl_shm-"`, fresh errno. -/
def create_shm_file (env : Nat → ShmOpen) (suffixes : Nat → String) :
    ShmResult × List ShmAction :=
  create_shm_loop env suffixes 100 0 "/wl_shm-" none

/-- The names the allocator presented to exclusive creation, in order. -/
def openNames (tr : List ShmAction) : List String :=
  tr.filterMap fun a =>
    match a with
    | .tryOpen n => some n
    | _ => none

/-- Concatenation of `k` consecutive random suffixes starting at index `i`. -/
def catFrom (suffixes : Nat → String) : Nat → Nat → String
  | _, 0 => ""
  | i, k + 1 => suffixes i ++ catFrom suffixes (i + 1) k

/-- An outcome that is a normal return. -/
def Outcome.isSuccess : Outcome α → Bool
  | .ok _ => true
  | _ => false

/-- An OS environment whose first creation attempt fails with `EACCES`
(errno 13) and whose second succeeds. -/
def envAccesThenOk : Nat → ShmOpen :=
  fun i => if i = 0 then .fail 13 else .opened none

/-- An OS environment whose first creation attempt collides (`EEXIST`) and
whose second succeeds. -/
def envCollideThenOk : Nat → ShmOpen :=
  fun i => if i = 0 then .fail EEXIST else .opened none

/-- An OS environment in which every creation attempt fails with
`EACCES`. -/
def envAllAcces : Nat → ShmOpen := fun _ => .fail 13

/-- A deterministic suffix source: every `randname()` call yields
`"abc123"`. -/
def suffixesConst : Nat → String := fun _ => "abc123"

/-- A deterministic suffix source: every `randname()` call yields
`"xyz789"`. -/
def suffixesConst2 : Nat → String := fun _ => "xyz789"

/-! ## Theorems -/

/-- Evaluation of `UIntValue::get` on a range, with the distribution
constructor's failure condition made explicit. -/
theorem get_range_eq (mn mx draw : Nat) :
    UIntValue.get (.uintRange mn mx) draw =
      if 2 ^ 32 ≤ mn + mx then .overflow
      else if mx < mn then .overflow
      else if (mx - mn) / 2 = 0 then .samplingError
      else .ok (Nat.min (Nat.max draw mn) mx) := by
  unfold UIntValue.get Normal.new
  by_cases hz : (mx - mn) / 2 = 0 <;> simp [hz]

/-- C5: for every zero-spread range value (`min == max`), value resolution
fails rather than resolving to `min`: within `u32` bounds the degenerate
standard deviation 0 makes the (spec-modelled) distribution constructor
fail, and that failure propagates as the sampling error; outside `u32`
bounds the addition itself overflows, so resolution still never returns a
value. -/
theorem zero_spread_range_fails (m draw : Nat) :
    (UIntValue.get (.uintRange m m) draw = .samplingError ∨
      UIntValue.get (.uintRange m m) draw = .overflow)
    ∧ (m + m < 2 ^ 32 → UIntValue.get (.uintRange m m) draw = .samplingError) := by
  rw [get_range_eq]
  constructor
  · by_cases h : 2 ^ 32 ≤ m + m
    · right
      rw [if_pos h]
    · left
      rw [if_neg h, if_neg (lt_irrefl m), if_pos (by omega)]
  · intro hlt
    have h : ¬ 2 ^ 32 ≤ m + m := by omega
    rw [if_neg h, if_neg (lt_irrefl m), if_pos (by omega)]

/-- C5 witness: the degenerate range `[5, 5]` fails with the sampling
error. -/
theorem zero_spread_range_fails_witness :
    UIntValue.get (.uintRange 5 5) 0 = .samplingError :=
  (zero_spread_range_fails 5 0).2 (by decide)

/-- C1: requesting a capture with an explicit output name succeeds exactly
when some known output carries that name; requesting with no name succeeds
exactly when exactly one output is known, and then resolves to that
output. -/
theorem output_resolution_correct (a : AppData) (n : String) :
    ((resolve_output a (some n)).isSuccess = true ↔ ∃ o ∈ a.outputs, o.name = some n)
    ∧ ((resolve_output a none).isSuccess = true ↔ a.outputs.length = 1)
    ∧ (∀ o : Output, a.outputs = [o] → resolve_output a none = .ok o.id) := by
  refine ⟨?_, ?_, ?_⟩
  · cases hf : a.outputs.find? (fun o => o.name == some n) with
    | none =>
        simp only [resolve_output, AppData.get_output_by_name, hf, Option.map_none']
        constructor
        · intro h
          exact absurd h (by simp [Outcome.isSuccess])
        · rintro ⟨o, ho, hname⟩
          have hno := List.find?_eq_none.mp hf o ho
          simp [hname] at hno
    | some o =>
        simp only [resolve_output, AppData.get_output_by_name, hf, Option.map_some']
        constructor
        · intro _
          refine ⟨o, List.mem_of_find?_eq_some hf, ?_⟩
          have hp := List.find?_some hf
          simpa using hp
        · intro _
          rfl
  · cases houts : a.outputs with
    | nil =>
        simp [resolve_output, houts, Outcome.isSuccess]
    | cons x xs =>
        cases xs with
        | nil => simp [resolve_output, houts, Outcome.isSuccess]
        | cons y ys =>
            have hc : 1 < a.outputs.length := by
              rw [houts]
              simp only [List.length_cons]
              omega
            simp only [resolve_output]
            rw [if_pos hc]
            simp [Outcome.isSuccess, houts]
  · intro o ho
    simp [resolve_output, ho]

/-- C1 witness: with the single output map `{1: "eDP-1"}` and no name
given, resolution succeeds with that output. -/
theorem output_resolution_correct_witness :
    resolve_output ⟨true, true, true, true, true, true, [⟨1, some "eDP-1"⟩]⟩ none
      = .ok 1 :=
  (output_resolution_correct
    ⟨true, true, true, true, true, true, [⟨1, some "eDP-1"⟩]⟩ "eDP-1").2.2
    ⟨1, some "eDP-1"⟩ rfl

/-- C6: for every range `[mn, mx]` with `mn < mx` and every possible random
draw, a successful resolution returns an integer in `[mn, mx]` inclusive
(the truncated sample is clamped into the range). -/
theorem range_sample_in_bounds (mn mx draw v : Nat) (hlt : mn < mx)
    (hok : UIntValue.get (.uintRange mn mx) draw = .ok v) :
    mn ≤ v ∧ v ≤ mx := by
  rw [get_range_eq] at hok
  split at hok
  · exact absurd hok (by simp)
  · split at hok
    · exact absurd hok (by simp)
    · split at hok
      · exact absurd hok (by simp)
      · cases hok
        refine ⟨?_, Nat.min_le_right _ _⟩
        have h1 : mn ≤ Nat.max draw mn := Nat.le_max_right draw mn
        have h2 : mn ≤ mx := Nat.le_of_lt hlt
        exact Nat.le_min.mpr ⟨h1, h2⟩

/-- C6 witness: the range `[1, 9]` with draw 100 resolves to 9, which lies
in the range. -/
theorem range_sample_in_bounds_witness : 1 ≤ 9 ∧ 9 ≤ 9 :=
  range_sample_in_bounds 1 9 100 9 (by decide) (by decide)

/-- C10: value resolution of a range is only total under `mn ≤ mx` with
`mn + mx` in `u32` range: for `mx < mn` the unchecked `u32` subtraction
overflows (a distinct abnormal outcome, not a sampling error and not a
value), this is reachable from the public binding layer, which builds the
range from two caller integers without validating their order, and under
the precondition no overflow occurs. -/
theorem range_reversed_overflows (mn mx draw : Nat) :
    (mx < mn → UIntValue.get (.uintRange mn mx) draw = .overflow)
    ∧ (mx < mn → (pyDurationValue mn (some mx)).get draw = .overflow)
    ∧ (mn ≤ mx → mn + mx < 2 ^ 32 →
        UIntValue.get (.uintRange mn mx) draw ≠ .overflow) := by
  refine ⟨?_, ?_, ?_⟩
  · intro h
    rw [get_range_eq]
    by_cases h1 : 2 ^ 32 ≤ mn + mx
    · rw [if_pos h1]
    · rw [if_neg h1, if_pos h]
  · intro h
    show UIntValue.get (.uintRange mn mx) draw = .overflow
    rw [get_range_eq]
    by_cases h1 : 2 ^ 32 ≤ mn + mx
    · rw [if_pos h1]
    · rw [if_neg h1, if_pos h]
  · intro hle hsum
    rw [get_range_eq]
    have h1 : ¬ 2 ^ 32 ≤ mn + mx := by omega
    have h2 : ¬ mx < mn := by omega
    rw [if_neg h1, if_neg h2]
    by_cases hz : (mx - mn) / 2 = 0
    · rw [if_pos hz]
      simp
    · rw [if_neg hz]
      simp

/-- C10 witness: the reversed range `[10, 3]`, as built by the binding
layer's `left_click(10, Some(3))`, overflows. -/
theorem range_reversed_overflows_witness :
    (pyDurationValue 10 (some 3)).get 0 = .overflow :=
  (range_reversed_overflows 10 3 0).2.1 (by decide)

/-- Unfolding `chunk` on a non-empty list with positive chunk width. -/
theorem chunk_cons (n : Nat) (x : α) (xs : List α) :
    chunk (n + 1) (x :: xs) = (x :: xs).take (n + 1) :: chunk (n + 1) (xs.drop n) := by
  rw [chunk]

/-- A list of length `m * (n + 1)` splits into `m` chunks of length
`n + 1`. -/
theorem chunk_spec (n : Nat) :
    ∀ (m : Nat) (l : List α), l.length = m * (n + 1) →
      (chunk (n + 1) l).length = m ∧ ∀ c ∈ chunk (n + 1) l, c.length = n + 1 := by
  intro m
  induction m with
  | zero =>
      intro l hl
      have hnil : l = [] := List.eq_nil_of_length_eq_zero (by simpa using hl)
      subst hnil
      simp [chunk]
  | succ m ih =>
      intro l hl
      have hmul : (m + 1) * (n + 1) = m * (n + 1) + (n + 1) := Nat.succ_mul m (n + 1)
      cases l with
      | nil =>
          rw [List.length_nil] at hl
          have hpos : 0 < (m + 1) * (n + 1) := Nat.mul_pos (Nat.succ_pos m) (Nat.succ_pos n)
          omega
      | cons x xs =>
          rw [chunk_cons]
          rw [List.length_cons, hmul] at hl
          have hxs : xs.length = m * (n + 1) + n := by omega
          have hdrop : (xs.drop n).length = m * (n + 1) := by
            rw [List.length_drop]
            omega
          obtain ⟨ih1, ih2⟩ := ih (xs.drop n) hdrop
          refine ⟨by simp [ih1], ?_⟩
          intro c hc
          rcases List.mem_cons.mp hc with hc' | hc'
          · subst hc'
            rw [List.length_take, List.length_cons, hxs]
            exact Nat.min_eq_left (by omega)
          · exact ih2 c hc'

/-- C2: the negotiated buffer's required shared-memory byte size is
4 × width × height, independent of the advertised stride; a completed
screenshot reads exactly height × width × 4 bytes and reshapes them into a
row-major pixel array of shape (height, width, 4). -/
theorem buffer_size_and_shape (b : Buffer) (st : Nat) (buf : List Nat)
    (hw : 0 < b.width) (hh : 0 < b.height) (hlen : buf.length = screenshotReadLen b) :
    b.size = 4 * b.width * b.height
    ∧ (Buffer.mk b.format b.width b.height st).size = b.size
    ∧ screenshotReadLen b = b.size
    ∧ ∃ arr, to_shape3 b.height b.width 4 buf = some arr
        ∧ arr.length = b.height
        ∧ ∀ row ∈ arr, row.length = b.width ∧ ∀ px ∈ row, px.length = 4 := by
  obtain ⟨fm, w, h, sd⟩ := b
  simp only [Buffer.size, screenshotReadLen] at *
  obtain ⟨w', rfl⟩ : ∃ k, w = k + 1 := ⟨w - 1, by omega⟩
  refine ⟨by ring, by trivial, by ring, ?_⟩
  simp only [to_shape3]
  rw [if_pos hlen]
  have h4 : (w' + 1) * 4 = w' * 4 + 3 + 1 := by ring
  rw [h4]
  have hblen : buf.length = h * (w' * 4 + 3 + 1) := hlen.trans (by ring)
  obtain ⟨hL, hC⟩ := chunk_spec (w' * 4 + 3) h buf hblen
  refine ⟨_, rfl, by simpa using hL, ?_⟩
  intro row hrow
  obtain ⟨c, hc, rfl⟩ := List.mem_map.mp hrow
  have hclen : c.length = (w' + 1) * (3 + 1) := by
    rw [hC c hc]
    ring
  obtain ⟨hL2, hC2⟩ := chunk_spec 3 (w' + 1) c hclen
  have h34 : (3 : Nat) + 1 = 4 := rfl
  rw [h34] at hL2 hC2
  exact ⟨hL2, hC2⟩

/-- C2 witness: a negotiated 3×2 buffer with advertised stride 12: the size
is 4·3·2 = 24, 24 bytes are read, and the reshape yields a 2×3×4 array. -/
theorem buffer_size_and_shape_witness :
    (Buffer.mk 0 3 2 12).size = 4 * 3 * 2
    ∧ ∃ arr, to_shape3 2 3 4 (List.replicate 24 0) = some arr
        ∧ arr.length = 2
        ∧ ∀ row ∈ arr, row.length = 3 ∧ ∀ px ∈ row, px.length = 4 :=
  ⟨(buffer_size_and_shape ⟨0, 3, 2, 12⟩ 12 (List.replicate 24 0)
      (by decide) (by decide) (by decide)).1,
   (buffer_size_and_shape ⟨0, 3, 2, 12⟩ 12 (List.replicate 24 0)
      (by decide) (by decide) (by decide)).2.2.2⟩

/-- C7 counterexample: with the seat never advertised, session bootstrap
panics (`unwrap()` on `None`) instead of returning an error value, unlike
the screenshot path, which surfaces the missing screen-copy manager as the
error value `"no screencopy manager"`. -/
theorem missing_seat_panics :
    connect ⟨false, true, true, true, true, true, [⟨1, some "eDP-1"⟩]⟩ = .panic
    ∧ screenshot_start ⟨true, true, true, false, true, true, [⟨1, some "eDP-1"⟩]⟩
        (some "eDP-1") = .err "no screencopy manager" := by
  constructor <;> decide

/-- C7 amended: a missing seat, virtual-keyboard manager, keymap, or
virtual-pointer manager makes session bootstrap panic (an `unwrap()`, not
an error value), while only the missing screen-copy manager and missing
shared-memory factory during screenshot are surfaced to the caller as
error values. -/
theorem missing_global_outcomes (a : AppData) :
    (a.seat = false → connect a = .panic)
    ∧ (a.vkm = false → connect a = .panic)
    ∧ (a.keymap = false → connect a = .panic)
    ∧ (a.vpm = false → connect a = .panic)
    ∧ (a.screencopyManager = false →
        ∀ name o, a.get_output_by_name name = some o →
          screenshot_start a (some name) = .err "no screencopy manager")
    ∧ (a.shm = false → screenshot_shm_check a = .err "no shared memory") := by
  obtain ⟨seat, vkm, vpm, scm, shm, km, outs⟩ := a
  refine ⟨?_, ?_, ?_, ?_, ?_, ?_⟩
  · rintro rfl
    rfl
  · rintro rfl
    cases seat <;> rfl
  · rintro rfl
    cases seat <;> cases vkm <;> rfl
  · rintro rfl
    cases seat <;> cases vkm <;> cases km <;> rfl
  · rintro rfl name o ho
    simp [screenshot_start, resolve_output, ho]
  · rintro rfl
    rfl

/-- C7 witness: a state with no seat, no screen-copy manager and no
shared-memory factory: bootstrap panics, the screenshot-side checks return
error values. -/
theorem missing_global_outcomes_witness :
    connect ⟨false, true, true, false, false, true, [Output.mk 1 (some "eDP-1")]⟩ = .panic
    ∧ screenshot_start ⟨false, true, true, false, false, true, [Output.mk 1 (some "eDP-1")]⟩
        (some "eDP-1") = .err "no screencopy manager"
    ∧ screenshot_shm_check ⟨false, true, true, false, false, true, [Output.mk 1 (some "eDP-1")]⟩
        = .err "no shared memory" :=
  ⟨(missing_global_outcomes _).1 rfl,
   (missing_global_outcomes _).2.2.2.2.1 rfl "eDP-1" 1 (by decide),
   (missing_global_outcomes _).2.2.2.2.2 rfl⟩

/-- C8: the display name is the explicit argument if given, else
`WAYLAND_DISPLAY`, else `"wayland-0"`; an absolute name is used as-is; a
relative name is joined under `XDG_RUNTIME_DIR` and is an error when that
variable is unset; in particular, with no explicit display,
`WAYLAND_DISPLAY=wayland-1` and `XDG_RUNTIME_DIR=/run/user/1000`, the
resolved path is `/run/user/1000/wayland-1`. -/
theorem socket_path_resolution (d w f dir : String) (wdEnv xdgEnv : Option String) :
    connect_wayland (some d) wdEnv xdgEnv = resolvePathSpec d xdgEnv
    ∧ connect_wayland none (some w) xdgEnv = resolvePathSpec w xdgEnv
    ∧ connect_wayland none none xdgEnv = resolvePathSpec "wayland-0" xdgEnv
    ∧ (isAbsolute f = true → resolvePathSpec f xdgEnv = .ok f)
    ∧ (isAbsolute f = false → resolvePathSpec f (some dir) = .ok (pathPush dir f))
    ∧ (isAbsolute f = false → resolvePathSpec f none = .err "no XDG_RUNTIME_DIR set")
    ∧ connect_wayland none (some "wayland-1") (some "/run/user/1000")
        = .ok "/run/user/1000/wayland-1" := by
  refine ⟨rfl, rfl, rfl, ?_, ?_, ?_, by decide⟩
  · intro h
    simp [resolvePathSpec, h]
  · intro h
    simp [resolvePathSpec, h]
  · intro h
    simp [resolvePathSpec, h]

/-- C8 witness: the end-to-end scenario of the claim, plus a relative name
with the runtime directory unset being a configuration error. -/
theorem socket_path_resolution_witness :
    connect_wayland none (some "wayland-1") (some "/run/user/1000")
      = .ok "/run/user/1000/wayland-1"
    ∧ resolvePathSpec "wayland-0" none = .err "no XDG_RUNTIME_DIR set" :=
  ⟨(socket_path_resolution "d" "w" "f" "dir" none none).2.2.2.2.2.2,
   (socket_path_resolution "d" "w" "wayland-0" "dir" none none).2.2.2.2.2.1 (by decide)⟩

/-- C9: for every click (left or right, fixed codes 272/273) and every key
press whose duration resolves, the emitted sequence is press, round-trip,
sleep of exactly the resolved duration, release, round-trip — the press
precedes the release and the sleep sits between the two round-trips. -/
theorem press_sleep_release_order (v : UIntValue) (draw d code key : Nat)
    (hok : v.get draw = .ok d) :
    (click code v draw).2
      = [.button 0 code true, .roundtrip, .sleepMs d, .button 0 code false, .roundtrip]
    ∧ left_click v draw
        = (.ok (), [.button 0 272 true, .roundtrip, .sleepMs d,
                    .button 0 272 false, .roundtrip])
    ∧ right_click v draw
        = (.ok (), [.button 0 273 true, .roundtrip, .sleepMs d,
                    .button 0 273 false, .roundtrip])
    ∧ key_press key v draw
        = (.ok (), [.key 0 key 1, .roundtrip, .sleepMs d,
                    .key 0 key 0, .roundtrip]) := by
  refine ⟨?_, ?_, ?_, ?_⟩ <;> simp [click, left_click, right_click, key_press, hok]

/-- C9 witness: a fixed 7 ms duration: left click trace is press 272,
round-trip, sleep 7, release 272, round-trip. -/
theorem press_sleep_release_order_witness :
    left_click (.uint 7) 0
      = (.ok (), [.button 0 272 true, .roundtrip, .sleepMs 7,
                  .button 0 272 false, .roundtrip]) :=
  (press_sleep_release_order (.uint 7) 0 7 272 30 rfl).2.1

/-- `openNames` over a trace beginning with a creation attempt. -/
theorem openNames_cons_tryOpen (n : String) (tr : List ShmAction) :
    openNames (.tryOpen n :: tr) = n :: openNames tr := rfl

/-- C3 counterexample: the first creation attempt fails with `EACCES`
(errno 13, not a name collision), yet the allocator does not abort with
that error: it performs a second creation attempt and returns the second
attempt's descriptor. -/
theorem shm_noncollision_retried :
    (create_shm_file envAccesThenOk suffixesConst).1 = .ok 1
    ∧ openNames (create_shm_file envAccesThenOk suffixesConst).2
        = ["/wl_shm-abc123", "/wl_shm-abc123abc123"] := by
  constructor <;> decide

/-- With every attempt failing with errno `e`, the loop runs to exhaustion:
it uses all its remaining retries and reports the error selected by `e`. -/
theorem create_shm_loop_all_fail (env : Nat → ShmOpen) (suffixes : Nat → String)
    (e : Nat) (h : ∀ j, env j = .fail e) :
    ∀ (r i : Nat) (name : String),
      (create_shm_loop env suffixes r i name (some e)).1 = shmFinalErr (some e)
      ∧ (openNames (create_shm_loop env suffixes r i name (some e)).2).length = r := by
  intro r
  induction r with
  | zero =>
      intro i name
      exact ⟨rfl, rfl⟩
  | succ r ih =>
      intro i name
      simp only [create_shm_loop, h i]
      obtain ⟨ih1, ih2⟩ := ih (i + 1) (name ++ suffixes i)
      refine ⟨ih1, ?_⟩
      rw [openNames_cons_tryOpen, List.length_cons, ih2]

/-- One step of the loop on a failed creation attempt: the errno is
recorded, a retry is consumed, and the loop continues. -/
theorem create_shm_loop_fail_step (env : Nat → ShmOpen) (suffixes : Nat → String)
    (r i : Nat) (name : String) (lastE : Option Nat) (e : Nat)
    (h : env i = .fail e) :
    create_shm_loop env suffixes (r + 1) i name lastE
      = ((create_shm_loop env suffixes r (i + 1) (name ++ suffixes i) (some e)).1,
         .tryOpen (name ++ suffixes i)
           :: (create_shm_loop env suffixes r (i + 1) (name ++ suffixes i) (some e)).2) := by
  simp [create_shm_loop, h]

/-- C3 amended: only a truncate failure aborts the loop at once (a single
attempt, its errno selecting the reported error); a creation attempt that
fails does not abort — the loop retries regardless of the errno — and with
every attempt failing, exactly 100 creation attempts are made before the
error (collision or other OS error, by the last errno) is reported. -/
theorem shm_retry_behaviour (env : Nat → ShmOpen) (suffixes : Nat → String)
    (r i : Nat) (name : String) (lastE : Option Nat) (e : Nat) :
    (env i = .opened (some e) →
      create_shm_loop env suffixes (r + 1) i name lastE
        = (shmFinalErr (some e),
           [.tryOpen (name ++ suffixes i), .unlink (name ++ suffixes i),
            .truncate (name ++ suffixes i)]))
    ∧ (env i = .fail e →
        create_shm_loop env suffixes (r + 1) i name lastE
          = ((create_shm_loop env suffixes r (i + 1) (name ++ suffixes i) (some e)).1,
             .tryOpen (name ++ suffixes i)
               :: (create_shm_loop env suffixes r (i + 1) (name ++ suffixes i) (some e)).2))
    ∧ ((∀ j, env j = .fail e) →
        (create_shm_file env suffixes).1 = shmFinalErr (some e)
        ∧ (openNames (create_shm_file env suffixes).2).length = 100) := by
  refine ⟨?_, ?_, ?_⟩
  · intro h
    simp [create_shm_loop, h]
  · intro h
    simp [create_shm_loop, h]
  · intro h
    have h100 : create_shm_file env suffixes
        = create_shm_loop env suffixes (99 + 1) 0 "/wl_shm-" none := rfl
    have hstep := create_shm_loop_fail_step env suffixes 99 0 "/wl_shm-" none e (h 0)
    rw [h100, hstep]
    obtain ⟨h1, h2⟩ :=
      create_shm_loop_all_fail env suffixes e h 99 1 ("/wl_shm-" ++ suffixes 0)
    refine ⟨h1, ?_⟩
    rw [openNames_cons_tryOpen, List.length_cons, h2]

/-- C3 witness: with every attempt failing with `EACCES`, 100 creation
attempts are made and the non-collision OS error is reported only after
exhaustion. -/
theorem shm_retry_behaviour_witness :
    (create_shm_file envAllAcces suffixesConst).1 = .errOs 13
    ∧ (openNames (create_shm_file envAllAcces suffixesConst).2).length = 100 := by
  have h := (shm_retry_behaviour envAllAcces suffixesConst 0 0 "" none 13).2.2
    (fun _ => rfl)
  exact ⟨by rw [h.1]; rfl, h.2⟩

/-- C4 counterexample: the first attempt's name `"/wl_shm-xyz789"` collides,
and the name presented on the retry is `"/wl_shm-xyz789xyz789"` — 20
characters, while the fixed tag followed by exactly 6 random characters
would have 14: the fresh suffix is pushed onto the accumulated name, not
onto the fixed tag. -/
theorem shm_retry_name_accumulates :
    openNames (create_shm_file envCollideThenOk suffixesConst2).2
      = ["/wl_shm-xyz789", "/wl_shm-xyz789xyz789"]
    ∧ "/wl_shm-xyz789xyz789".length = 20
    ∧ "/wl_shm-".length + 6 = 14 := by
  refine ⟨by decide, by decide, by decide⟩

/-- Length of a suffix concatenation when every suffix has 6 characters. -/
theorem catFrom_length (suffixes : Nat → String)
    (hlen : ∀ i, (suffixes i).length = 6) :
    ∀ (k i : Nat), (catFrom suffixes i k).length = 6 * k := by
  intro k
  induction k with
  | zero =>
      intro i
      rfl
  | succ k ih =>
      intro i
      simp only [catFrom, String.length_append, hlen i, ih (i + 1)]
      ring

/-- A suffix concatenation of alphanumeric suffixes is alphanumeric. -/
theorem catFrom_alpha (suffixes : Nat → String)
    (halpha : ∀ i, ∀ c ∈ (suffixes i).data, c.isAlphanum = true) :
    ∀ (k i : Nat), ∀ c ∈ (catFrom suffixes i k).data, c.isAlphanum = true := by
  intro k
  induction k with
  | zero =>
      intro i c hc
      simp [catFrom] at hc
  | succ k ih =>
      intro i c hc
      rw [catFrom, String.data_append] at hc
      rcases List.mem_append.mp hc with hc' | hc'
      · exact halpha i c hc'
      · exact ih (i + 1) c hc'

/-- Every name the loop presents to exclusive creation is the starting name
followed by a concatenation of consecutive suffixes. -/
theorem openNames_shape (env : Nat → ShmOpen) (suffixes : Nat → String) :
    ∀ (r i : Nat) (name : String) (lastE : Option Nat),
      ∀ n ∈ openNames (create_shm_loop env suffixes r i name lastE).2,
        ∃ k, n = name ++ catFrom suffixes i (k + 1) := by
  intro r
  induction r with
  | zero =>
      intro i name lastE n hn
      simp [create_shm_loop, openNames] at hn
  | succ r ih =>
      intro i name lastE n hn
      cases henv : env i with
      | opened tres =>
          cases tres with
          | none =>
              simp only [create_shm_loop, henv] at hn
              simp [openNames] at hn
              exact ⟨0, by simp [hn, catFrom]⟩
          | some e =>
              simp only [create_shm_loop, henv] at hn
              simp [openNames] at hn
              exact ⟨0, by simp [hn, catFrom]⟩
      | fail e =>
          simp only [create_shm_loop, henv] at hn
          rw [openNames_cons_tryOpen] at hn
          rcases List.mem_cons.mp hn with hn' | hn'
          · exact ⟨0, by simp [hn', catFrom]⟩
          · obtain ⟨k, hk⟩ := ih (i + 1) (name ++ suffixes i) (some e) n hn'
            refine ⟨k + 1, ?_⟩
            rw [hk]
            conv_rhs => rw [catFrom]
            rw [String.append_assoc]

/-- The loop always presents at least one name, and the first one is the
starting name followed by one fresh suffix. -/
theorem openNames_head (env : Nat → ShmOpen) (suffixes : Nat → String)
    (r i : Nat) (name : String) (lastE : Option Nat) :
    (openNames (create_shm_loop env suffixes (r + 1) i name lastE).2).head?
      = some (name ++ suffixes i) := by
  cases henv : env i with
  | opened tres =>
      cases tres <;> simp [create_shm_loop, henv, openNames]
  | fail e =>
      simp only [create_shm_loop, henv]
      rw [openNames_cons_tryOpen]
      rfl

/-- The after-loop error selection never produces a descriptor. -/
theorem shmFinalErr_ne_ok (o : Option Nat) (k : Nat) : shmFinalErr o ≠ .ok k := by
  cases o with
  | none => simp [shmFinalErr]
  | some e =>
      simp only [shmFinalErr]
      split <;> simp

/-- When the loop returns a descriptor, the trace ends with the successful
attempt's creation, immediately followed by its unlink, and only then the
truncate. -/
theorem ok_trace_shape (env : Nat → ShmOpen) (suffixes : Nat → String) :
    ∀ (r i : Nat) (name : String) (lastE : Option Nat) (k : Nat),
      (create_shm_loop env suffixes r i name lastE).1 = .ok k →
      ∃ pre n, (create_shm_loop env suffixes r i name lastE).2
        = pre ++ [.tryOpen n, .unlink n, .truncate n] := by
  intro r
  induction r with
  | zero =>
      intro i name lastE k hk
      simp only [create_shm_loop] at hk
      exact absurd hk (shmFinalErr_ne_ok lastE k)
  | succ r ih =>
      intro i name lastE k hk
      cases henv : env i with
      | opened tres =>
          cases tres with
          | none =>
              refine ⟨[], name ++ suffixes i, ?_⟩
              simp [create_shm_loop, henv]
          | some e =>
              simp only [create_shm_loop, henv] at hk
              exact absurd hk (shmFinalErr_ne_ok (some e) k)
      | fail e =>
          simp only [create_shm_loop, henv] at hk
          obtain ⟨pre, n, hpre⟩ := ih (i + 1) (name ++ suffixes i) (some e) k hk
          refine ⟨.tryOpen (name ++ suffixes i) :: pre, n, ?_⟩
          simp [create_shm_loop, henv, hpre]

/-- C4 amended: every name presented to exclusive creation is the fixed tag
`"/wl_shm-"` followed by the concatenation of all random suffixes drawn so
far — `6·(k+1)` alphanumeric characters on attempt `k` (0-based), so
exactly 6 only on the first attempt — and on successful creation the name
is unlinked immediately, before the truncate and before the descriptor is
returned. -/
theorem shm_names_and_unlink (env : Nat → ShmOpen) (suffixes : Nat → String)
    (hlen : ∀ i, (suffixes i).length = 6)
    (halpha : ∀ i, ∀ c ∈ (suffixes i).data, c.isAlphanum = true) :
    (∀ n ∈ openNames (create_shm_file env suffixes).2,
      ∃ k, n = "/wl_shm-" ++ catFrom suffixes 0 (k + 1)
        ∧ n.length = "/wl_shm-".length + 6 * (k + 1)
        ∧ ∀ c ∈ (catFrom suffixes 0 (k + 1)).data, c.isAlphanum = true)
    ∧ (openNames (create_shm_file env suffixes).2).head?
        = some ("/wl_shm-" ++ suffixes 0)
    ∧ ("/wl_shm-" ++ suffixes 0).length = "/wl_shm-".length + 6
    ∧ (∀ k, (create_shm_file env suffixes).1 = .ok k →
        ∃ pre n, (create_shm_file env suffixes).2
          = pre ++ [.tryOpen n, .unlink n, .truncate n]) := by
  refine ⟨?_, ?_, ?_, ?_⟩
  · intro n hn
    obtain ⟨k, hk⟩ := openNames_shape env suffixes 100 0 "/wl_shm-" none n hn
    refine ⟨k, hk, ?_, catFrom_alpha suffixes halpha (k + 1) 0⟩
    rw [hk, String.length_append, catFrom_length suffixes hlen (k + 1) 0]
  · show (openNames (create_shm_loop env suffixes (99 + 1) 0 "/wl_shm-" none).2).head? = _
    exact openNames_head env suffixes 99 0 "/wl_shm-" none
  · rw [String.length_append, hlen 0]
  · intro k hk
    exact ok_trace_shape env suffixes 100 0 "/wl_shm-" none k hk

/-- C4 witness: a deterministic alphanumeric 6-character suffix source with
a colliding first attempt: the first presented name is the tag plus that
suffix, with length 8 + 6. -/
theorem shm_names_and_unlink_witness :
    (openNames (create_shm_file envCollideThenOk suffixesConst).2).head?
      = some ("/wl_shm-" ++ suffixesConst 0)
    ∧ ("/wl_shm-" ++ suffixesConst 0).length = "/wl_shm-".length + 6 := by
  have h6 : ∀ i, (suffixesConst i).length = 6 := fun _ => rfl
  have ha : ∀ i, ∀ c ∈ (suffixesConst i).data, c.isAlphanum = true := by
    intro _
    show ∀ c ∈ "abc123".data, c.isAlphanum = true
    decide
  exact ⟨(shm_names_and_unlink envCollideThenOk suffixesConst h6 ha).2.1,
    (shm_names_and_unlink envCollideThenOk suffixesConst h6 ha).2.2.1⟩

end Wdotool
